import Mathlib

/-!
Shallow embedding of `app/main.py` (nx-webcam): a webcam service with

* a shared frame buffer `_last_jpeg : Optional[bytes]` guarded by `_cap_lock`
  (single writer `grabber_worker`, several readers);
* the acquisition loop `grabber_worker` (open capture with retry/backoff,
  read frames, encode to JPEG, publish into the buffer);
* the push worker `prusa_pusher_worker` (periodic HTTP PUT of the current
  frame, disabled when credentials are missing);
* the HTTP handlers `snapshot` (GET /snapshot.jpg) and `mjpeg`
  (GET /mjpeg, a per-client multipart generator).

Python `bytes` values are modelled as `List Nat`; the worker loops are
modelled as total functions from a script of externally determined events
(device open/read outcomes, encode outcomes, upload outcomes, observations
of the stop event) to the trace of actions the loop performs.  Sleeping is
an action carrying the duration in seconds as a rational number.  Because
`_last_jpeg` is written and read only under `_cap_lock`, publish and read
are atomic: concurrency is modelled as an arbitrary interleaving of these
atomic operations.
-/

namespace NxWebcam

/-- Python `bytes` as a list of byte values. -/
abbrev Bytes := List Nat

/-- The bytes of an ASCII string literal (Python `str.encode()` /
`b"..."` literals). -/
def strBytes (s : String) : Bytes := s.data.map Char.toNat

/-! ## The frame buffer `_last_jpeg` under `_cap_lock`

`grabber_worker` publishes with `with _cap_lock: _last_jpeg = data`; every
reader does `with _cap_lock: data = _last_jpeg`.  The lock makes each of
these a single atomic step, so a concurrent history is an arbitrary
finite interleaving of atomic `publish` and `read` operations. -/

/-- One atomic operation on the shared buffer. -/
inductive BufOp
  | publish (d : Bytes)
  | read
deriving DecidableEq

/-- Run a history of buffer operations from buffer state `st`, with `pubs`
the frames published so far; return for each read the result paired with the
list of frames published before that read. -/
def buffer_trace (st : Option Bytes) (pubs : List Bytes) :
    List BufOp → List (Option Bytes × List Bytes)
  | [] => []
  | .publish d :: rest => buffer_trace (some d) (pubs ++ [d]) rest
  | .read :: rest => (st, pubs) :: buffer_trace st pubs rest

/-- The buffer contents after a sequence of publishes (each publish
overwrites the whole slot; the buffer starts as `None`). -/
def bufferAfter (pubs : List Bytes) : Option Bytes :=
  pubs.foldl (fun _ d => some d) none

/-! ## `snapshot` — GET /snapshot.jpg -/

/-- The parts of a FastAPI/Starlette `Response` the handlers set. -/
structure HResponse where
  status : Nat
  body : Bytes
  media_type : Option String
deriving DecidableEq

/-- Handler `snapshot()`: read `_last_jpeg` under the lock; `if not data:` return
`Response(status_code=503)` (empty body), else
`Response(content=data, media_type="image/jpeg")` (status 200).
Note the Python falsiness test: both `None` and `b""` take the 503 branch. -/
def snapshot (buf : Option Bytes) : HResponse :=
  match buf with
  | none => ⟨503, [], none⟩
  | some d => if d = [] then ⟨503, [], none⟩ else ⟨200, d, some "image/jpeg"⟩

/-! ## `grabber_worker` — the acquisition loop

The interaction of the loop with the outside world (device opens, frame reads,
encode outcomes, the stop event) is captured as a script of events; the
loop itself becomes a total function from the script to the list of
actions it performs.  The reads of a session end at the first failed read
(`break`) or at a stop observation; an exhausted script truncates the
(otherwise infinite) loop. -/

/-- Outcome of one inner-loop step: the stop event observed set
(`while not stop_event.is_set()`), `cap.read()` failing
(`not ok or frame is None`), or a frame read whose JPEG encode
(`cv2.imencode`) returns `some data` on success (`ok`) or `none` on
failure. -/
inductive ReadEv
  | stop
  | fail
  | ok (enc : Option Bytes)
deriving DecidableEq

/-- Outcome of one outer-loop step: the stop event observed set,
`open_capture()` raising, or a session opened that then produces the
given read events. -/
inductive OpenEv
  | stop
  | fail
  | ok (reads : List ReadEv)
deriving DecidableEq

/-- An observable action of the acquisition loop. -/
inductive GAction
  | openAttempt
  | opened
  | logError
  | logWarn
  | release
  | sleep (secs : ℚ)
  | publish (d : Bytes)
deriving DecidableEq

/-- Why the inner `while` loop was left. -/
inductive InnerExit
  | stopped
  | broke
  | ranOut
deriving DecidableEq

/-- The per-frame sleep `time.sleep(max(0.0, 1.0 / max(FPS, 5)) / 2.0)`. -/
def frameDelay (fps : Nat) : ℚ := max 0 (1 / (max fps 5 : ℚ)) / 2

/-- The inner `while not stop_event.is_set()` loop of `grabber_worker`,
for one open session: read; on failure log a warning, `cap.release()`,
`time.sleep(0.5)` and `break`; on success publish the encoded frame when
`cv2.imencode` succeeded (no action at all when it failed) and sleep half
a frame interval. -/
def grabber_session (fps : Nat) : List ReadEv → List GAction × InnerExit
  | [] => ([], .ranOut)
  | .stop :: _ => ([], .stopped)
  | .fail :: _ => ([.logWarn, .release, .sleep (1/2)], .broke)
  | .ok enc :: rest =>
    ((match enc with
      | some d => [GAction.publish d]
      | none => []) ++
        (GAction.sleep (frameDelay fps) :: (grabber_session fps rest).1),
     (grabber_session fps rest).2)

/-- The outer `while not stop_event.is_set()` loop of `grabber_worker`:
try `open_capture()` (on exception log an error and `time.sleep(1.0)`);
run the session; after the inner loop exits, `time.sleep(0.2)`, then
re-check the stop event.  A session that observed stop is followed by the
outer check also observing stop (the stop event is never cleared while
running). -/
def grabber_worker (fps : Nat) : List OpenEv → List GAction
  | [] => []
  | .stop :: _ => []
  | .fail :: rest =>
    GAction.openAttempt :: GAction.logError :: GAction.sleep 1 ::
      grabber_worker fps rest
  | .ok reads :: rest =>
    GAction.openAttempt :: GAction.opened :: (grabber_session fps reads).1 ++
      match (grabber_session fps reads).2 with
      | .ranOut => []
      | .stopped => [GAction.sleep (1/5)]
      | .broke => GAction.sleep (1/5) :: grabber_worker fps rest

/-- The read events belonging to an open event. -/
def readsOf : OpenEv → List ReadEv
  | .ok reads => reads
  | _ => []

/-- The actions of one complete read-failure cycle: open, read fails,
warn, release, back off 0.5 s, pause 0.2 s, and loop around to reopen. -/
def readFailCycle : List GAction :=
  [.openAttempt, .opened, .logWarn, .release, .sleep (1/2), .sleep (1/5)]

/-! ## `prusa_pusher_worker` — the push worker -/

/-- Outcome of one `sess.put(...)` attempt: an HTTP response status, or a
transport exception. -/
inductive UpOutcome
  | status (n : Nat)
  | exn
deriving DecidableEq

/-- One push-worker loop step: the stop event observed set, or an
iteration in which the buffer read yields `frame` and an upload (were one
attempted) would have outcome `outcome`. -/
inductive PushEv
  | stop
  | tick (frame : Option Bytes) (outcome : UpOutcome)
deriving DecidableEq

/-- An observable action of the push worker. -/
inductive PAction
  | sleep (secs : ℚ)
  | readFrame
  | put (d : Bytes) (timeout : ℚ)
  | logWarn
  | logDebug
  | logInfo
deriving DecidableEq

/-- The body of one push iteration after the buffer read: `if not data:
continue` (no action for `None` or empty bytes); otherwise one
`sess.put(..., timeout=10)`, logging a warning when
`resp.status_code >= 400` or on exception, a debug line otherwise. -/
def push_iter (frame : Option Bytes) (o : UpOutcome) : List PAction :=
  match frame with
  | none => []
  | some d =>
    if d = [] then []
    else
      PAction.put d 10 ::
        match o with
        | .status n => if 400 ≤ n then [PAction.logWarn] else [PAction.logDebug]
        | .exn => [PAction.logWarn]

/-- The `while not stop_event.is_set()` loop of the push worker:
`time.sleep(PUSH_EVERY)`, read `_last_jpeg` under the lock, then the
iteration body; every outcome falls through to the next iteration. -/
def prusa_loop (pushEvery : ℚ) : List PushEv → List PAction
  | [] => []
  | .stop :: _ => []
  | .tick f o :: rest =>
    PAction.sleep pushEvery :: PAction.readFrame ::
      push_iter f o ++ prusa_loop pushEvery rest

/-- Worker `prusa_pusher_worker()`: `if not PRUSA_TOKEN or not PRUSA_FINGERPRINT`
log that the upload is disabled and return — before the loop, once for
the process lifetime; otherwise log that the pusher is active and loop. -/
def prusa_pusher_worker (token fingerprint : String) (pushEvery : ℚ)
    (evs : List PushEv) : List PAction :=
  if token = "" ∨ fingerprint = "" then [PAction.logInfo]
  else PAction.logInfo :: prusa_loop pushEvery evs

/-- Whether an action is an HTTP upload. -/
def PAction.isPut : PAction → Bool
  | .put _ _ => true
  | _ => false

/-! ## `mjpeg` — the per-client multipart generator -/

/-- The constant `boundary = "frame"` in `mjpeg()`. -/
def boundary : String := "frame"

/-- The bytes yielded for one frame:
`b"--" + boundary.encode() + b"\r\n" b"Content-Type: image/jpeg\r\n"
b"Content-Length: " + str(len(data)).encode() + b"\r\n\r\n" + data +
b"\r\n"`. -/
def mjpeg_segment (d : Bytes) : Bytes :=
  strBytes "--" ++ strBytes boundary ++ strBytes "\r\n" ++
    strBytes "Content-Type: image/jpeg" ++ strBytes "\r\n" ++
    strBytes "Content-Length: " ++ strBytes (Nat.repr d.length) ++
    strBytes "\r\n\r\n" ++ d ++ strBytes "\r\n"

/-- One generator cycle: either the stop event is observed set
(`if stop_event.is_set(): break`), or the buffer is read with the given
contents. -/
inductive MCycle
  | stop
  | cycle (buf : Option Bytes)
deriving DecidableEq

/-- What one cycle yields after reading the buffer: `if data:` yield one
segment; `None` or empty bytes yield nothing. -/
def mjpeg_cycle_emit (buf : Option Bytes) : List Bytes :=
  match buf with
  | none => []
  | some d => if d = [] then [] else [mjpeg_segment d]

/-- The generator `gen()` inside `mjpeg()`: the sequence of byte chunks
yielded over a script of cycles (an exhausted script truncates the
otherwise endless generator). -/
def mjpeg_gen : List MCycle → List Bytes
  | [] => []
  | .stop :: _ => []
  | .cycle b :: rest => mjpeg_cycle_emit b ++ mjpeg_gen rest

/-! ## Theorems -/

/-- Invariant of `buffer_trace`: if the initial buffer state is the empty
sentinel or a previously published frame, then every read observes the
empty sentinel or a frame published before that read. -/
lemma buffer_trace_inv (ops : List BufOp) :
    ∀ (st : Option Bytes) (pubs : List Bytes),
      (st = none ∨ ∃ d, st = some d ∧ d ∈ pubs) →
      ∀ r ps, (r, ps) ∈ buffer_trace st pubs ops →
        r = none ∨ ∃ d, r = some d ∧ d ∈ ps := by
  induction ops with
  | nil =>
    intro st pubs _ r ps h
    simp [buffer_trace] at h
  | cons op rest ih =>
    intro st pubs hst r ps h
    cases op with
    | publish d =>
      exact ih (some d) (pubs ++ [d]) (Or.inr ⟨d, rfl, by simp⟩) r ps h
    | read =>
      rcases List.mem_cons.mp h with h | h
      · rw [Prod.mk.injEq] at h
        obtain ⟨rfl, rfl⟩ := h
        exact hst
      · exact ih st pubs hst r ps h

/-- C1: in any interleaving of atomic publishes and reads of the frame
buffer (starting from the empty sentinel), every read returns either the
empty sentinel or, in its entirety, one byte sequence that was published
before the read — never a mixture of two published frames and never a
partial frame, since each publish installs its whole byte sequence in one
atomic step under `_cap_lock`. -/
theorem reads_never_torn (ops : List BufOp) (r : Option Bytes)
    (ps : List Bytes) (h : (r, ps) ∈ buffer_trace none [] ops) :
    r = none ∨ ∃ d, r = some d ∧ d ∈ ps :=
  buffer_trace_inv ops none [] (Or.inl rfl) r ps h

/-- Witness for C1 at the history publish [1]; read. -/
theorem reads_never_torn_witness :
    (some [1] : Option Bytes) = none ∨
      ∃ d, (some [1] : Option Bytes) = some d ∧ d ∈ [[1]] :=
  reads_never_torn [.publish [1], .read] (some [1]) [[1]] (by decide)

/-- C2 counterexample: after publishing the zero-length byte sequence, a
frame has been published, yet `snapshot` answers 503 with an empty body
instead of 200 with the published bytes (Python `if not data:` treats
`b""` like `None`). -/
theorem snapshot_empty_frame_counterexample :
    bufferAfter [([] : Bytes)] = some [] ∧
    snapshot (bufferAfter [([] : Bytes)]) = ⟨503, [], none⟩ ∧
    (snapshot (bufferAfter [([] : Bytes)])).status ≠ 200 := by
  refine ⟨rfl, rfl, ?_⟩
  decide

/-- C2 as amended: `snapshot` answers 503 with an empty body when no
frame has ever been published or when the most recently published frame
is empty, and answers 200 with exactly the most recently published bytes
and content type image/jpeg when that frame is non-empty. -/
theorem snapshot_serves_latest_frame (pubs : List Bytes) :
    (bufferAfter pubs = none →
      snapshot (bufferAfter pubs) = ⟨503, [], none⟩) ∧
    (bufferAfter pubs = some [] →
      snapshot (bufferAfter pubs) = ⟨503, [], none⟩) ∧
    (∀ d, bufferAfter pubs = some d → d ≠ [] →
      snapshot (bufferAfter pubs) = ⟨200, d, some "image/jpeg"⟩) := by
  refine ⟨fun h => ?_, fun h => ?_, fun d h hd => ?_⟩
  · rw [h]; rfl
  · rw [h]; rfl
  · rw [h]
    simp [snapshot, hd]

/-- Witness for C2 as amended, after the single publish of [7]. -/
theorem snapshot_serves_latest_frame_witness :
    snapshot (bufferAfter [[7]]) = ⟨200, [7], some "image/jpeg"⟩ :=
  (snapshot_serves_latest_frame [[7]]).2.2 [7] rfl (by decide)

/-- C9 counterexample: `snapshot` returns 200 after the publish of [1],
but returns 503 again once the empty byte sequence is published — even
though the buffer is not `None` — so a 200 is not permanent. -/
theorem snapshot_503_after_200_counterexample :
    (snapshot (bufferAfter [[1]])).status = 200 ∧
    (snapshot (bufferAfter [[1], []])).status = 503 ∧
    bufferAfter [[1], []] ≠ none := by
  decide

/-- Folding publishes from a `some` state never returns to `none`. -/
lemma foldl_publish_ne_none (l : List Bytes) :
    ∀ x : Bytes, l.foldl (fun _ d => some d) (some x) ≠ none := by
  induction l with
  | nil => intro x; simp
  | cons d rest ih => intro x; simpa using ih d

/-- Snapshot of a fold of non-empty publishes from a non-empty frame is
a 200 response. -/
lemma snapshot_foldl_nonempty (l : List Bytes) :
    ∀ x : Bytes, x ≠ [] → (∀ d ∈ l, d ≠ []) →
      (snapshot (l.foldl (fun _ d => some d) (some x))).status = 200 := by
  induction l with
  | nil =>
    intro x hx _
    simp [snapshot, hx]
  | cons d rest ih =>
    intro x hx h
    simpa using ih d (h d (by simp)) (fun y hy => h y (by simp [hy]))

/-- C9 as amended: the buffer starts empty, each publish replaces the
whole slot with the new frame, and the buffer never returns to the `None`
sentinel; however a 200 from `snapshot` is permanent only as long as
every subsequently published frame is non-empty (publishing empty bytes
makes `snapshot` answer 503 again). -/
theorem buffer_monotone_populated :
    bufferAfter [] = none ∧
    (∀ pubs d, bufferAfter (pubs ++ [d]) = some d) ∧
    (∀ pubs, pubs ≠ [] → bufferAfter pubs ≠ none) ∧
    (∀ pubs more, (snapshot (bufferAfter pubs)).status = 200 →
      (∀ d ∈ more, d ≠ ([] : Bytes)) →
      (snapshot (bufferAfter (pubs ++ more))).status = 200) := by
  refine ⟨rfl, fun pubs d => ?_, fun pubs hp => ?_, fun pubs more h200 hne => ?_⟩
  · rw [bufferAfter, List.foldl_append]; rfl
  · cases pubs with
    | nil => exact absurd rfl hp
    | cons p ps =>
      rw [bufferAfter, List.foldl_cons]
      exact foldl_publish_ne_none ps p
  · cases more with
    | nil => simpa using h200
    | cons m ms =>
      rw [bufferAfter, List.foldl_append, List.foldl_cons]
      exact snapshot_foldl_nonempty ms m (hne m (by simp))
        (fun y hy => hne y (by simp [hy]))

/-- Witness for C9 as amended: publish [1] (a 200), then publish the
non-empty [2]; the snapshot is still a 200. -/
theorem buffer_monotone_populated_witness :
    (snapshot (bufferAfter ([[1]] ++ [[2]]))).status = 200 :=
  buffer_monotone_populated.2.2.2 [[1]] [[2]] (by decide) (by decide)

/-- C10: all three consumers test the stored frame with Python falsiness
(`if not data:` / `if data:`), so a buffer holding the empty byte
sequence is indistinguishable from a never-populated buffer: `snapshot`
answers 503, the `mjpeg` generator emits nothing for the cycle, and the
push worker skips the iteration after its sleep and read. -/
theorem empty_frame_indistinguishable :
    snapshot (some []) = snapshot none ∧
    (snapshot (some [])).status = 503 ∧
    (∀ rest, mjpeg_gen (MCycle.cycle (some []) :: rest) = mjpeg_gen rest) ∧
    mjpeg_cycle_emit (some []) = mjpeg_cycle_emit none ∧
    (∀ o, push_iter (some []) o = push_iter none o) ∧
    (∀ pushEvery o rest,
      prusa_loop pushEvery (PushEv.tick (some []) o :: rest) =
        PAction.sleep pushEvery :: PAction.readFrame ::
          prusa_loop pushEvery rest) :=
  ⟨rfl, rfl, fun _ => rfl, rfl, fun _ => rfl, fun _ _ _ => rfl⟩

/-- C3 counterexample: a session reads one frame whose JPEG encode fails
and then observes the stop event; the trace holds no log action at all
(the code silently skips the frame: `ok, buf = cv2.imencode(...)` is
followed only by `if ok:`, with no else branch), refuting the part of the
claim that says the failure is logged. -/
theorem encode_failure_not_logged :
    grabber_worker 15 [OpenEv.ok [ReadEv.ok none, ReadEv.stop]] =
      [GAction.openAttempt, GAction.opened, GAction.sleep (frameDelay 15),
        GAction.sleep (1/5)] ∧
    GAction.logWarn ∉ grabber_worker 15 [OpenEv.ok [ReadEv.ok none, ReadEv.stop]] ∧
    GAction.logError ∉ grabber_worker 15 [OpenEv.ok [ReadEv.ok none, ReadEv.stop]] ∧
    GAction.release ∉ grabber_worker 15 [OpenEv.ok [ReadEv.ok none, ReadEv.stop]] :=
  ⟨rfl, by decide, by decide, by decide⟩

/-- C3 as amended: on a frame whose JPEG encode fails the acquisition
loop silently skips the frame — publishing nothing, logging nothing,
releasing nothing — sleeps the usual half frame interval, and continues
reading from the same capture session exactly as it would have after the
skipped frame; the failure is never fatal. -/
theorem encode_failure_skips_frame (fps : Nat) (rest : List ReadEv) :
    grabber_session fps (ReadEv.ok none :: rest) =
      (GAction.sleep (frameDelay fps) :: (grabber_session fps rest).1,
        (grabber_session fps rest).2) ∧
    (∀ a, a ∈ (grabber_session fps (ReadEv.ok none :: rest)).1 ↔
      (a = GAction.sleep (frameDelay fps) ∨ a ∈ (grabber_session fps rest).1)) ∧
    (GAction.release ∈ (grabber_session fps (ReadEv.ok none :: rest)).1 ↔
      GAction.release ∈ (grabber_session fps rest).1) ∧
    (∀ d, GAction.publish d ∈ (grabber_session fps (ReadEv.ok none :: rest)).1 ↔
      GAction.publish d ∈ (grabber_session fps rest).1) := by
  refine ⟨rfl, fun a => by simp [grabber_session], ?_, fun d => ?_⟩
  · simp [grabber_session]
  · simp [grabber_session]

/-- One read-failure cycle of the outer loop: open succeeds, the read
fails, and the loop warns, releases the session, backs off and reopens. -/
lemma grabber_failCycle (fps : Nat) (rest : List OpenEv) :
    grabber_worker fps (OpenEv.ok [ReadEv.fail] :: rest) =
      readFailCycle ++ grabber_worker fps rest := rfl

/-- The trace of n consecutive read-failure cycles followed by a final
successful open. -/
lemma grabber_replicate (fps n : Nat) :
    grabber_worker fps
        (List.replicate n (OpenEv.ok [ReadEv.fail]) ++ [OpenEv.ok []]) =
      (List.replicate n readFailCycle).flatten ++
        [GAction.openAttempt, GAction.opened] := by
  induction n with
  | zero => rfl
  | succ k ih =>
    rw [List.replicate_succ, List.cons_append, grabber_failCycle, ih,
      List.replicate_succ, List.flatten_cons, List.append_assoc]

/-- Each read-failure cycle holds exactly one open attempt. -/
lemma count_openAttempt_flatten (n : Nat) :
    ((List.replicate n readFailCycle).flatten).count GAction.openAttempt = n := by
  induction n with
  | zero => rfl
  | succ k ih =>
    rw [List.replicate_succ, List.flatten_cons, List.count_append, ih]
    have h1 : readFailCycle.count GAction.openAttempt = 1 := by decide
    omega

/-- C4: after each single read failure the acquisition loop logs a
warning, releases the held capture session, sleeps the 0.5 s backoff
(plus the 0.2 s outer-loop pause, for a delay between 0.5 s and 1 s) and
then retries the open; a run of n consecutive read failures produces
exactly n identical reopen cycles, hence n + 1 open attempts in total
counting the final reopen. -/
theorem read_failures_drive_reopen_cycles (fps n : Nat) :
    grabber_worker fps
        (List.replicate n (OpenEv.ok [ReadEv.fail]) ++ [OpenEv.ok []]) =
      (List.replicate n readFailCycle).flatten ++
        [GAction.openAttempt, GAction.opened] ∧
    (grabber_worker fps
        (List.replicate n (OpenEv.ok [ReadEv.fail]) ++ [OpenEv.ok []])).count
      GAction.openAttempt = n + 1 ∧
    readFailCycle = [GAction.openAttempt, GAction.opened, GAction.logWarn,
      GAction.release, GAction.sleep (1/2), GAction.sleep (1/5)] ∧
    (1:ℚ)/2 ≤ 1/2 + 1/5 ∧ ((1:ℚ)/2 + 1/5) ≤ 1 := by
  refine ⟨grabber_replicate fps n, ?_, rfl, by norm_num, by norm_num⟩
  rw [grabber_replicate, List.count_append, count_openAttempt_flatten]
  have h2 : ([GAction.openAttempt, GAction.opened]).count GAction.openAttempt = 1 := by
    decide
  omega

/-- No read event in the session fails, so the session never releases
the capture device. -/
lemma release_notin_session (fps : Nat) (rs : List ReadEv)
    (h : ∀ re ∈ rs, re ≠ ReadEv.fail) :
    GAction.release ∉ (grabber_session fps rs).1 := by
  induction rs with
  | nil => simp [grabber_session]
  | cons re rest ih =>
    have hr := ih (fun x hx => h x (List.mem_cons_of_mem _ hx))
    cases re with
    | stop => simp [grabber_session]
    | fail => exact absurd rfl (h _ (List.mem_cons_self _ _))
    | ok enc =>
      cases enc with
      | none => simpa [grabber_session] using hr
      | some d => simpa [grabber_session] using hr

/-- No read event in the script fails, so the worker never releases the
capture device. -/
lemma release_notin_worker (fps : Nat) (script : List OpenEv)
    (h : ∀ oe ∈ script, ∀ re ∈ readsOf oe, re ≠ ReadEv.fail) :
    GAction.release ∉ grabber_worker fps script := by
  induction script with
  | nil => simp [grabber_worker]
  | cons oe rest ih =>
    have ihr := ih (fun x hx => h x (List.mem_cons_of_mem _ hx))
    cases oe with
    | stop => simp [grabber_worker]
    | fail => simpa [grabber_worker] using ihr
    | ok reads =>
      have hs := release_notin_session fps reads (h _ (List.mem_cons_self _ _))
      rcases hex : (grabber_session fps reads).2 with _ | _ | _ <;>
        simp_all [grabber_worker, hex]

/-- C8 counterexample: the acquisition loop opens a session, publishes
one frame and then observes the stop event; it exits at the next stop
check, but its trace holds no release of the open capture session (the
inner `while not stop_event.is_set()` loop is left without calling
`cap.release()`, which only happens on a read failure). -/
theorem shutdown_no_release_counterexample :
    grabber_worker 15 [OpenEv.ok [ReadEv.ok (some [1]), ReadEv.stop]] =
      [GAction.openAttempt, GAction.opened, GAction.publish [1],
        GAction.sleep (frameDelay 15), GAction.sleep (1/5)] ∧
    GAction.opened ∈ grabber_worker 15 [OpenEv.ok [ReadEv.ok (some [1]), ReadEv.stop]] ∧
    GAction.release ∉ grabber_worker 15 [OpenEv.ok [ReadEv.ok (some [1]), ReadEv.stop]] :=
  ⟨rfl, by decide, by decide⟩

/-- C8 as amended: when the stop signal is set, every background loop
(acquisition outer loop and inner read loop, push worker, per-client
stream generator) exits at its next check of the stop event and performs
no further action; but the capture session is not released on this
shutdown path — the acquisition loop releases the session only upon a
read failure, so a script free of read failures holds no release at
all. -/
theorem stop_signal_halts_loops :
    (∀ fps rest, grabber_worker fps (OpenEv.stop :: rest) = []) ∧
    (∀ fps rs, grabber_session fps (ReadEv.stop :: rs) = ([], InnerExit.stopped)) ∧
    (∀ pushEvery rest, prusa_loop pushEvery (PushEv.stop :: rest) = []) ∧
    (∀ rest, mjpeg_gen (MCycle.stop :: rest) = []) ∧
    (∀ fps script, (∀ oe ∈ script, ∀ re ∈ readsOf oe, re ≠ ReadEv.fail) →
      GAction.release ∉ grabber_worker fps script) :=
  ⟨fun _ _ => rfl, fun _ _ => rfl, fun _ _ => rfl, fun _ => rfl,
    fun fps script h => release_notin_worker fps script h⟩

/-- Witness for C8 as amended on a fail-free script: open, publish [2],
stop. -/
theorem stop_signal_halts_loops_witness :
    GAction.release ∉ grabber_worker 15 [OpenEv.ok [ReadEv.ok (some [2]), ReadEv.stop]] :=
  stop_signal_halts_loops.2.2.2.2 15
    [OpenEv.ok [ReadEv.ok (some [2]), ReadEv.stop]] (by decide)

/-- C5: if the push token or the push fingerprint is the empty string,
the push worker logs one informational line and returns before entering
its loop — the check happens once, before the loop, and the whole trace
holds no HTTP upload no matter how long the iteration script is. -/
theorem push_disabled_without_credentials (token fingerprint : String)
    (pushEvery : ℚ) (evs : List PushEv)
    (h : token = "" ∨ fingerprint = "") :
    prusa_pusher_worker token fingerprint pushEvery evs = [PAction.logInfo] ∧
    (∀ d t, PAction.put d t ∉ prusa_pusher_worker token fingerprint pushEvery evs) ∧
    (prusa_pusher_worker token fingerprint pushEvery evs).count PAction.logInfo = 1 := by
  have e : prusa_pusher_worker token fingerprint pushEvery evs = [PAction.logInfo] := by
    unfold prusa_pusher_worker
    rw [if_pos h]
  refine ⟨e, fun d t => ?_, ?_⟩
  · rw [e]; simp
  · rw [e]; rfl

/-- Witness for C5 with an unset token and a non-trivial script. -/
theorem push_disabled_without_credentials_witness :
    prusa_pusher_worker "" "abc" 10 [PushEv.tick (some [1]) (UpOutcome.status 200)] =
      [PAction.logInfo] :=
  (push_disabled_without_credentials "" "abc" 10
    [PushEv.tick (some [1]) (UpOutcome.status 200)] (Or.inl rfl)).1

/-- C6: with credentials set, each push iteration first sleeps the
configured interval, then reads the buffer, skips silently when no frame
(or an empty frame) is available, performs at most one upload — always
with timeout 10 and carrying exactly the frame read — logs a warning on
any status of at least 400 and on any transport exception, and in every
case falls through to the next iteration. -/
theorem push_iteration_bounded (pushEvery : ℚ) (f : Option Bytes)
    (o : UpOutcome) (rest : List PushEv) :
    prusa_loop pushEvery (PushEv.tick f o :: rest) =
      PAction.sleep pushEvery :: PAction.readFrame ::
        (push_iter f o ++ prusa_loop pushEvery rest) ∧
    ((f = none ∨ f = some []) → push_iter f o = []) ∧
    (push_iter f o).countP PAction.isPut ≤ 1 ∧
    (∀ d t, PAction.put d t ∈ push_iter f o → t = 10 ∧ f = some d ∧ d ≠ []) ∧
    (∀ d, f = some d → d ≠ [] →
      (o = UpOutcome.exn ∨ ∃ n, o = UpOutcome.status n ∧ 400 ≤ n) →
      PAction.logWarn ∈ push_iter f o) := by
  refine ⟨rfl, ?_, ?_, ?_, ?_⟩
  · rintro (rfl | rfl) <;> rfl
  · cases f with
    | none => simp [push_iter]
    | some d =>
      by_cases hd : d = []
      · simp [push_iter, hd]
      · cases o with
        | exn => simp [push_iter, hd, PAction.isPut]
        | status n =>
          by_cases hn : 400 ≤ n <;> simp [push_iter, hd, hn, PAction.isPut]
  · intro d t h
    cases f with
    | none => simp [push_iter] at h
    | some x =>
      by_cases hx : x = []
      · simp [push_iter, hx] at h
      · cases o with
        | exn =>
          simp [push_iter, hx] at h
          obtain ⟨rfl, rfl⟩ := h
          exact ⟨rfl, rfl, hx⟩
        | status n =>
          by_cases hn : 400 ≤ n <;>
            · simp [push_iter, hx, hn] at h
              obtain ⟨rfl, rfl⟩ := h
              exact ⟨rfl, rfl, hx⟩
  · rintro d rfl hd ho
    rcases ho with rfl | ⟨n, rfl, hn⟩
    · simp [push_iter, hd]
    · simp [push_iter, hd, hn]

/-- Witness for C6: a frame is present and the destination answers 500,
so the iteration logs a warning. -/
theorem push_iteration_bounded_witness :
    PAction.logWarn ∈ push_iter (some [1]) (UpOutcome.status 500) :=
  (push_iteration_bounded 10 (some [1]) (UpOutcome.status 500) []).2.2.2.2
    [1] rfl (by decide) (Or.inr ⟨500, rfl, by decide⟩)

/-- Structure of one multipart segment: it starts with the boundary
marker, carries the content-type header, a content-length header whose
decimal value is the byte length of the attached frame, and the frame
bytes, and it is never empty. -/
lemma mjpeg_segment_ne_nil (d : Bytes) : mjpeg_segment d ≠ [] := by
  intro h
  simp only [mjpeg_segment, List.append_eq_nil] at h
  exact absurd h.1.1.1.1.1.1.1.1.1 (by decide)

/-- Structure of one multipart segment, continued: boundary prefix,
headers and payload. -/
lemma mjpeg_segment_parts (d : Bytes) :
    (strBytes "--" ++ strBytes boundary) <+: mjpeg_segment d ∧
    strBytes "Content-Type: image/jpeg" <:+: mjpeg_segment d ∧
    (strBytes "Content-Length: " ++ strBytes (Nat.repr d.length)) <:+:
      mjpeg_segment d ∧
    d <:+: mjpeg_segment d ∧
    mjpeg_segment d ≠ [] := by
  refine ⟨⟨strBytes "\r\n" ++ strBytes "Content-Type: image/jpeg" ++
      strBytes "\r\n" ++ strBytes "Content-Length: " ++
      strBytes (Nat.repr d.length) ++ strBytes "\r\n\r\n" ++ d ++
      strBytes "\r\n", ?_⟩,
    ⟨strBytes "--" ++ strBytes boundary ++ strBytes "\r\n",
      strBytes "\r\n" ++ strBytes "Content-Length: " ++
        strBytes (Nat.repr d.length) ++ strBytes "\r\n\r\n" ++ d ++
        strBytes "\r\n", ?_⟩,
    ⟨strBytes "--" ++ strBytes boundary ++ strBytes "\r\n" ++
      strBytes "Content-Type: image/jpeg" ++ strBytes "\r\n",
      strBytes "\r\n\r\n" ++ d ++ strBytes "\r\n", ?_⟩,
    ⟨strBytes "--" ++ strBytes boundary ++ strBytes "\r\n" ++
      strBytes "Content-Type: image/jpeg" ++ strBytes "\r\n" ++
      strBytes "Content-Length: " ++ strBytes (Nat.repr d.length) ++
      strBytes "\r\n\r\n", strBytes "\r\n", ?_⟩,
    mjpeg_segment_ne_nil d⟩ <;>
  simp [mjpeg_segment, List.append_assoc]

/-- C7: every chunk the per-client generator emits is the well-formed
multipart segment of some non-empty frame — boundary marker first, then
the content-type header, then a content-length header whose value is the
exact byte length of the attached frame, then the frame bytes — and a
cycle that reads an unpopulated (or empty) buffer emits nothing at
all. -/
theorem mjpeg_segments_wellformed :
    (∀ cycles e, e ∈ mjpeg_gen cycles →
      ∃ d, d ≠ [] ∧ e = mjpeg_segment d ∧
        (strBytes "--" ++ strBytes boundary) <+: e ∧
        strBytes "Content-Type: image/jpeg" <:+: e ∧
        (strBytes "Content-Length: " ++ strBytes (Nat.repr d.length)) <:+: e ∧
        d <:+: e ∧ e ≠ []) ∧
    (∀ rest, mjpeg_gen (MCycle.cycle none :: rest) = mjpeg_gen rest) ∧
    (∀ rest, mjpeg_gen (MCycle.cycle (some []) :: rest) = mjpeg_gen rest) := by
  refine ⟨?_, fun _ => rfl, fun _ => rfl⟩
  intro cycles
  induction cycles with
  | nil =>
    intro e he
    simp [mjpeg_gen] at he
  | cons c rest ih =>
    intro e he
    cases c with
    | stop => simp [mjpeg_gen] at he
    | cycle b =>
      cases b with
      | none => exact ih e he
      | some d =>
        by_cases hd : d = []
        · subst hd
          exact ih e he
        · simp only [mjpeg_gen, mjpeg_cycle_emit, if_neg hd,
            List.singleton_append, List.mem_cons] at he
          rcases he with rfl | he
          · obtain ⟨h1, h2, h3, h4, h5⟩ := mjpeg_segment_parts d
            exact ⟨d, hd, rfl, h1, h2, h3, h4, h5⟩
          · exact ih e he

/-- Witness for C7 at a single cycle holding the frame [7]. -/
theorem mjpeg_segments_wellformed_witness :
    ∃ d, d ≠ [] ∧ mjpeg_segment [7] = mjpeg_segment d ∧
      (strBytes "--" ++ strBytes boundary) <+: mjpeg_segment [7] ∧
      strBytes "Content-Type: image/jpeg" <:+: mjpeg_segment [7] ∧
      (strBytes "Content-Length: " ++ strBytes (Nat.repr d.length)) <:+:
        mjpeg_segment [7] ∧
      d <:+: mjpeg_segment [7] ∧ mjpeg_segment [7] ≠ [] :=
  mjpeg_segments_wellformed.1 [MCycle.cycle (some [7])] (mjpeg_segment [7])
    (by simp [mjpeg_gen, mjpeg_cycle_emit])

end NxWebcam
